import Mathlib

/-!
# Verification of the co-reviewer code-review pipeline

A shallow embedding, in Lean 4, of the pure core of the `co_reviewer`
Python package: the data model (`models.py`), the diff parsing of
`GitScanner._parse_diff` (`git_scanner.py`), the review agent
`ReviewAgent.review_changes` / `_prepare_review_context` /
`_create_error_review` (`review_agent.py`), and the orchestrator
`CoReviewer.review` (`reviewer.py`).

External effects are modelled as explicit inputs:
* the LLM review chain (`ReviewAgent._run_review_chain`) is a parameter
  `chain : ReviewContext → Except String CodeReview`, where `.error e`
  stands for a raised exception with message `e` (the `try/except` in
  `review_changes` is then an explicit `match`);
* the git repository is summarised by the scanner's outputs: the
  resolved current branch and the extracted change list;
* a `git.Diff` object is the record `DiffEntry` of the attributes that
  `_parse_diff` reads (flags, paths, decoded patch payload, optional
  structured statistics).

Python string truthiness (`x or y` with `None`/`""` falsy) is embedded
by `pyStrOr`; Python `str.startswith` by `pyStartsWith` (code-point
prefix test); Python slicing `s[:n]` by `strTake` (first `n` code
points); Python `sum(...)` by a left fold from `0`.
-/

namespace CoRev

/-- `models.FileChangeType`: kind of a file change. -/
inductive FileChangeType where
  | added
  | modified
  | deleted
  | renamed
deriving DecidableEq, Repr

/-- `FileChangeType.value`: the string payload of the Python `str`-enum. -/
def FileChangeType.value : FileChangeType → String
  | .added => "added"
  | .modified => "modified"
  | .deleted => "deleted"
  | .renamed => "renamed"

/-- `models.ReviewSeverity`: severity of a review comment. -/
inductive ReviewSeverity where
  | info
  | warning
  | error
  | critical
deriving DecidableEq, Repr

/-- `models.FileChange`: one changed file, as produced by the scanner. -/
structure FileChange where
  file_path : String
  change_type : FileChangeType
  additions : Nat
  deletions : Nat
  diff : String
  old_path : Option String
deriving DecidableEq, Repr

/-- `models.ReviewComment`: one comment of a review. -/
structure ReviewComment where
  file_path : String
  line_number : Option Nat
  severity : ReviewSeverity
  category : String
  message : String
  suggestion : Option String
deriving DecidableEq, Repr

/-- The `total_changes` dict, which the code always builds with exactly
the keys `"additions"` and `"deletions"`. -/
structure TotalChanges where
  additions : Nat
  deletions : Nat
deriving DecidableEq, Repr

/-- `models.CodeReview`: the review result. `metadata` (a Python
`dict[str, Any]` used with string values throughout the code) is
embedded as a lookup function. -/
structure CodeReview where
  summary : String
  files_reviewed : Nat
  total_changes : TotalChanges
  comments : List ReviewComment
  positive_feedback : List String
  overall_assessment : String
  metadata : String → Option String

/-- `models.ReviewRequest`. -/
structure ReviewRequest where
  workspace_path : String
  base_branch : String
  current_branch : Option String
  custom_instructions : Option String
  focus_areas : List String

/-- The fields of `config.Settings` that the embedded code reads. -/
structure Settings where
  max_diff_size : Nat
  max_files_per_review : Nat
deriving DecidableEq, Repr

/-- Python `a or b` on an optional string, where `None` and `""` are
falsy. -/
def pyStrOr (a : Option String) (b : String) : String :=
  match a with
  | none => b
  | some s => if s = "" then b else s

/-- Python `s.startswith(p)`: `p`'s code points are a prefix of `s`'s. -/
def pyStartsWith (s p : String) : Bool :=
  p.data.isPrefixOf s.data

/-- Python `s[:n]`: the first `n` code points of `s`. -/
def strTake (s : String) (n : Nat) : String :=
  ⟨s.data.take n⟩

/-! ## `git_scanner.GitScanner._parse_diff` -/

/-- The attributes of a `git.Diff` object that `_parse_diff` reads.
`content` is the decoded patch payload (`diff.diff` after the
byte-decoding step; `none` when absent). `stats` is
`(insertions, deletions)` when structured statistics are present and
non-empty, `none` otherwise. -/
structure DiffEntry where
  new_file : Bool
  deleted_file : Bool
  renamed_file : Bool
  a_path : Option String
  b_path : Option String
  content : Option String
  stats : Option (Nat × Nat)

/-- The `if/elif` classification at the top of `_parse_diff`:
`(change_type, file_path, old_path)`. -/
def classify_diff (d : DiffEntry) : FileChangeType × String × Option String :=
  if d.new_file then (.added, pyStrOr d.b_path "", none)
  else if d.deleted_file then (.deleted, pyStrOr d.a_path "", none)
  else if d.renamed_file then (.renamed, pyStrOr d.b_path "", d.a_path)
  else (.modified, pyStrOr d.b_path (pyStrOr d.a_path ""), none)

/-- The truncation marker appended by `_parse_diff` when the diff text
exceeds `max_diff_size`; `n` is the original character count. -/
def truncation_marker (n : Nat) : String :=
  "\n... (truncated, total size: " ++ toString n ++ " chars)"

/-- The `# Limit diff size` step of `_parse_diff`. -/
def limit_diff_text (max_diff_size : Nat) (t : String) : String :=
  if t.length > max_diff_size then
    strTake t max_diff_size ++ truncation_marker t.length
  else t

/-- The addition test of the fallback loop in `_parse_diff`:
`line.startswith("+") and not line.startswith("+++")`. -/
def addition_line (line : String) : Bool :=
  pyStartsWith line "+" && !pyStartsWith line "+++"

/-- The deletion test of the fallback loop in `_parse_diff`:
`line.startswith("-") and not line.startswith("---")`. -/
def deletion_line (line : String) : Bool :=
  pyStartsWith line "-" && !pyStartsWith line "---"

/-- The fallback `for line in diff_text.split("\n")` counting loop of
`_parse_diff`, accumulating `(additions, deletions)`; the deletion
branch is an `elif`, so it only fires when the addition test failed. -/
def count_diff_lines (t : String) : Nat × Nat :=
  (t.splitOn "\n").foldl
    (fun acc line =>
      if addition_line line then (acc.1 + 1, acc.2)
      else if deletion_line line then (acc.1, acc.2 + 1)
      else acc)
    (0, 0)

/-- `GitScanner._parse_diff`. Every operation in the body is total in
this embedding, so the `except` branch returning `None` is dead and the
result is a plain `FileChange`. -/
def parse_diff (s : Settings) (d : DiffEntry) : FileChange :=
  let c := classify_diff d
  let diff_text := limit_diff_text s.max_diff_size (d.content.getD "")
  let counts :=
    match d.stats with
    | some st => st
    | none => count_diff_lines diff_text
  { file_path := c.2.1
    change_type := c.1
    additions := counts.1
    deletions := counts.2
    diff := diff_text
    old_path := c.2.2 }

/-! ## `review_agent.ReviewAgent` -/

/-- The context dict built by `_prepare_review_context`. -/
structure ReviewContext where
  num_files : Nat
  total_additions : Nat
  total_deletions : Nat
  changes : String
  custom_instructions : String
  focus_areas : String
deriving DecidableEq, Repr

/-- The per-file f-string block of `_prepare_review_context`,
`.strip()`ped. -/
def format_change (c : FileChange) : String :=
  ("\nFile: " ++ c.file_path ++
   "\nChange Type: " ++ c.change_type.value ++
   "\nAdditions: +" ++ toString c.additions ++ ", Deletions: -" ++ toString c.deletions ++
   "\n" ++ (match c.old_path with
            | some p => if p = "" then "" else "Old Path: " ++ p
            | none => "") ++
   "\n\nDiff:\n" ++ c.diff ++ "\n---\n").trim

/-- `ReviewAgent._prepare_review_context`. The totals are Python
`sum(...)`, a left fold from `0`; `custom_instructions or "None"` and
`", ".join(focus_areas) if focus_areas else ...` use Python
truthiness. -/
def prepare_review_context (changes : List FileChange) (ci : Option String)
    (fa : Option (List String)) : ReviewContext :=
  { num_files := changes.length
    total_additions := changes.foldl (fun acc c => acc + c.additions) 0
    total_deletions := changes.foldl (fun acc c => acc + c.deletions) 0
    changes := String.intercalate "\n\n" (changes.map format_change)
    custom_instructions :=
      match ci with
      | none => "None"
      | some s => if s = "" then "None" else s
    focus_areas :=
      match fa with
      | none => "General code quality"
      | some [] => "General code quality"
      | some fs => String.intercalate ", " fs }

/-- `ReviewAgent._create_error_review`. -/
def create_error_review (changes : List FileChange) (error_msg : String) : CodeReview :=
  { summary := "Review failed with error: " ++ error_msg
    files_reviewed := changes.length
    total_changes :=
      { additions := changes.foldl (fun acc c => acc + c.additions) 0
        deletions := changes.foldl (fun acc c => acc + c.deletions) 0 }
    comments := [{ file_path := "N/A"
                   line_number := none
                   severity := .error
                   category := "system"
                   message := "Review process failed: " ++ error_msg
                   suggestion := none }]
    positive_feedback := []
    overall_assessment := "error"
    metadata := fun k => if k = "error" then some error_msg else none }

/-- The `# Limit number of files` step of `review_changes`:
`changes = changes[: max_files_per_review]` when over the cap. -/
def cap_changes (s : Settings) (changes : List FileChange) : List FileChange :=
  if changes.length > s.max_files_per_review then
    changes.take s.max_files_per_review
  else changes

/-- `ReviewAgent.review_changes`, with the LLM chain as an explicit
fallible parameter; the `try/except` around `_run_review_chain` is the
`match`. -/
def review_changes (s : Settings) (chain : ReviewContext → Except String CodeReview)
    (changes : List FileChange) (ci : Option String) (fa : Option (List String)) :
    CodeReview :=
  if changes.isEmpty then
    { summary := "No changes to review"
      files_reviewed := 0
      total_changes := { additions := 0, deletions := 0 }
      comments := []
      positive_feedback := []
      overall_assessment := "no changes"
      metadata := fun _ => none }
  else
    match chain (prepare_review_context (cap_changes s changes) ci fa) with
    | .ok review => review
    | .error e => create_error_review (cap_changes s changes) e

/-! ## `reviewer.CoReviewer.review` -/

/-- `request.current_branch or scanner.get_current_branch()`. -/
def resolve_current_branch (request : ReviewRequest) (scanner_branch : String) : String :=
  pyStrOr request.current_branch scanner_branch

/-- `CoReviewer.review`, with the scanner's outputs (resolved current
branch, extracted change list) and the agent's LLM chain as explicit
inputs. The `review.metadata.update({...})` enrichment forces the three
orchestrator keys and leaves every other lookup unchanged. -/
def review (s : Settings) (scanner_branch : String) (changes : List FileChange)
    (chain : ReviewContext → Except String CodeReview) (request : ReviewRequest) :
    CodeReview :=
  if changes.isEmpty then
    { summary := "No changes detected between branches"
      files_reviewed := 0
      total_changes := { additions := 0, deletions := 0 }
      comments := []
      positive_feedback := ["No changes to review"]
      overall_assessment := "no changes"
      metadata := fun k =>
        if k = "base_branch" then some request.base_branch
        else if k = "current_branch" then some (resolve_current_branch request scanner_branch)
        else none }
  else
    let rev := review_changes s chain changes request.custom_instructions
      (some request.focus_areas)
    { rev with metadata := fun k =>
        if k = "base_branch" then some request.base_branch
        else if k = "current_branch" then some (resolve_current_branch request scanner_branch)
        else if k = "workspace_path" then some request.workspace_path
        else rev.metadata k }

/-! ## Concrete fixtures used by witnesses and counterexamples -/

/-- Default settings: `max_diff_size = 10000`, `max_files_per_review = 20`. -/
def sDef : Settings := { max_diff_size := 10000, max_files_per_review := 20 }

/-- Settings with a file cap of one, to exercise truncation. -/
def sCap1 : Settings := { max_diff_size := 10000, max_files_per_review := 1 }

/-- A concrete modified-file change. -/
def cA : FileChange :=
  { file_path := "a.py", change_type := .modified, additions := 3, deletions := 1,
    diff := "+x\n-y", old_path := none }

/-- A concrete added-file change. -/
def cB : FileChange :=
  { file_path := "b.py", change_type := .added, additions := 2, deletions := 0,
    diff := "+z", old_path := none }

/-- A chain that always fails, modelling a raised exception. -/
def chainErr : ReviewContext → Except String CodeReview := fun _ => .error "boom"

/-- A concrete successful review the model could return; note its
`files_reviewed` is whatever the model said, here `2`. -/
def mockReview : CodeReview :=
  { summary := "Looks good", files_reviewed := 2,
    total_changes := { additions := 5, deletions := 1 },
    comments := [], positive_feedback := [], overall_assessment := "approved",
    metadata := fun _ => none }

/-- A chain that always succeeds with `mockReview`. -/
def chainOk : ReviewContext → Except String CodeReview := fun _ => .ok mockReview

/-- A concrete review request. -/
def reqA : ReviewRequest :=
  { workspace_path := "/ws/project", base_branch := "main", current_branch := none,
    custom_instructions := none, focus_areas := [] }

/-- A concrete rename diff entry as GitPython yields it (a rename
carries its source path in `a_path`). -/
def dRen : DiffEntry :=
  { new_file := false, deleted_file := false, renamed_file := true,
    a_path := some "old.py", b_path := some "new.py",
    content := some "+x\n-y", stats := none }

/-- A concrete modification diff entry with no structured statistics. -/
def dFall : DiffEntry :=
  { new_file := false, deleted_file := false, renamed_file := false,
    a_path := some "m.py", b_path := some "m.py",
    content := some "@@ -1,2 +1,2 @@\n+a\n-b\n x", stats := none }

/-! ## Helper lemmas -/

/-- Python `sum` (a left fold from an accumulator) computes the exact
`List.sum` of the projected values. -/
theorem foldl_add_map_sum (f : FileChange → Nat) (l : List FileChange) :
    ∀ a : Nat, l.foldl (fun acc c => acc + f c) a = a + (l.map f).sum := by
  induction l with
  | nil => intro a; simp
  | cons c cs ih => intro a; simp only [List.foldl_cons, List.map_cons, List.sum_cons, ih]; omega

/-- Length of a Python slice `s[:n]`. -/
theorem strTake_length (s : String) (n : Nat) : (strTake s n).length = min n s.length := by
  show (s.data.take n).length = min n s.data.length
  simp

/-- A line counted as a deletion starts with `'-'`, hence is not counted
as an addition. -/
theorem deletion_line_not_addition (l : String) :
    deletion_line l = true → addition_line l = false := by
  unfold deletion_line addition_line pyStartsWith
  cases hd : l.data with
  | nil => intro h; simp [List.isPrefixOf] at h
  | cons c cs =>
      intro h
      have hc : c = '-' := by
        have h' : List.isPrefixOf ['-'] (c :: cs) = true := by
          have h2 := h
          simp only [Bool.and_eq_true] at h2
          exact h2.1
        simp [List.isPrefixOf] at h'
        exact h'.symm
      subst hc
      show (List.isPrefixOf ['+'] ('-' :: cs) && !List.isPrefixOf ['+', '+', '+'] ('-' :: cs))
        = false
      simp [List.isPrefixOf]

/-- The `elif` counting loop computes, from any accumulator, the filter
counts of addition and deletion lines. -/
theorem count_fold_eq_filters (lines : List String) :
    ∀ ab : Nat × Nat,
      lines.foldl
        (fun acc line =>
          if addition_line line then (acc.1 + 1, acc.2)
          else if deletion_line line then (acc.1, acc.2 + 1)
          else acc) ab
      = (ab.1 + (lines.filter addition_line).length,
         ab.2 + (lines.filter deletion_line).length) := by
  induction lines with
  | nil => intro ab; simp
  | cons l ls ih =>
      intro ab
      by_cases ha : addition_line l
      · have hdel : deletion_line l = false := by
          cases hdl : deletion_line l
          · rfl
          · have := deletion_line_not_addition l hdl
            rw [ha] at this
            exact absurd this (by simp)
        simp only [List.foldl_cons, ha, if_true, List.filter_cons, hdel,
          Bool.false_eq_true, if_false, ih]
        simp [Prod.ext_iff]
        omega
      · have ha' : addition_line l = false := by
          cases hal : addition_line l
          · rfl
          · exact absurd hal ha
        by_cases hd : deletion_line l
        · simp only [List.foldl_cons, ha', Bool.false_eq_true, if_false, hd, if_true,
            List.filter_cons, ih]
          simp [Prod.ext_iff]
          omega
        · have hd' : deletion_line l = false := by
            cases hdl : deletion_line l
            · rfl
            · exact absurd hdl hd
          simp only [List.foldl_cons, ha', hd', Bool.false_eq_true, if_false,
            List.filter_cons, ih]

/-! ## Claim theorems -/

/-- C8: for every (possibly capped) list of `FileChange` records, the
assembled context's `total_additions` is the exact integer sum of the
`additions` fields and `total_deletions` the exact sum of the
`deletions` fields, with no rounding or loss. -/
theorem prepare_context_totals_exact (changes : List FileChange) (ci : Option String)
    (fa : Option (List String)) :
    (prepare_review_context changes ci fa).total_additions
        = (changes.map (fun c => c.additions)).sum
      ∧ (prepare_review_context changes ci fa).total_deletions
        = (changes.map (fun c => c.deletions)).sum := by
  constructor <;>
    simp [prepare_review_context, foldl_add_map_sum]

/-- C5: the stored patch text of a parsed diff never exceeds
`max_diff_size` plus the length of the appended truncation marker; when
the decoded text fits within `max_diff_size` it is stored identically
with no marker; and when truncation occurs, the appended marker states
the original character count. -/
theorem parse_diff_truncation_bound (s : Settings) (d : DiffEntry) :
    (parse_diff s d).diff.length
        ≤ s.max_diff_size + (truncation_marker (d.content.getD "").length).length
      ∧ ((d.content.getD "").length ≤ s.max_diff_size →
          (parse_diff s d).diff = d.content.getD "")
      ∧ ((d.content.getD "").length > s.max_diff_size →
          (parse_diff s d).diff
            = strTake (d.content.getD "") s.max_diff_size
                ++ truncation_marker (d.content.getD "").length) := by
  have hdiff : (parse_diff s d).diff = limit_diff_text s.max_diff_size (d.content.getD "") :=
    rfl
  rw [hdiff]
  by_cases h : (d.content.getD "").length > s.max_diff_size
  · rw [limit_diff_text, if_pos h]
    refine ⟨?_, fun hle => absurd h (by omega), fun _ => rfl⟩
    rw [String.length_append, strTake_length]
    omega
  · rw [limit_diff_text, if_neg h]
    exact ⟨by omega, fun _ => rfl, fun hgt => absurd hgt h⟩

/-- Witness for C5 at a concrete diff entry. -/
theorem parse_diff_truncation_bound_witness :
    (parse_diff sDef dFall).diff.length
        ≤ sDef.max_diff_size + (truncation_marker (dFall.content.getD "").length).length
      ∧ ((dFall.content.getD "").length ≤ sDef.max_diff_size →
          (parse_diff sDef dFall).diff = dFall.content.getD "")
      ∧ ((dFall.content.getD "").length > sDef.max_diff_size →
          (parse_diff sDef dFall).diff
            = strTake (dFall.content.getD "") sDef.max_diff_size
                ++ truncation_marker (dFall.content.getD "").length) :=
  parse_diff_truncation_bound sDef dFall

/-- C9: when structured diff statistics are unavailable, the fallback
computes `additions` as the number of lines of the stored patch text
that begin with `"+"` but not `"+++"`, and `deletions` as the number of
lines that begin with `"-"` but not `"---"`; both counts are
non-negative. -/
theorem parse_diff_fallback_counts (s : Settings) (d : DiffEntry)
    (hstats : d.stats = none) :
    (parse_diff s d).additions
        = (((parse_diff s d).diff.splitOn "\n").filter addition_line).length
      ∧ (parse_diff s d).deletions
        = (((parse_diff s d).diff.splitOn "\n").filter deletion_line).length
      ∧ 0 ≤ (parse_diff s d).additions ∧ 0 ≤ (parse_diff s d).deletions := by
  have hcount :
      (parse_diff s d).additions
          = (count_diff_lines (limit_diff_text s.max_diff_size (d.content.getD ""))).1
        ∧ (parse_diff s d).deletions
          = (count_diff_lines (limit_diff_text s.max_diff_size (d.content.getD ""))).2 := by
    rw [parse_diff, hstats]
    exact ⟨rfl, rfl⟩
  have hdiff : (parse_diff s d).diff = limit_diff_text s.max_diff_size (d.content.getD "") :=
    rfl
  rw [hcount.1, hcount.2, hdiff, count_diff_lines, count_fold_eq_filters]
  exact ⟨by simp, by simp, Nat.zero_le _, Nat.zero_le _⟩

/-- Witness for C9 at a concrete diff entry without statistics. -/
theorem parse_diff_fallback_counts_witness :
    (parse_diff sDef dFall).additions
        = (((parse_diff sDef dFall).diff.splitOn "\n").filter addition_line).length
      ∧ (parse_diff sDef dFall).deletions
        = (((parse_diff sDef dFall).diff.splitOn "\n").filter deletion_line).length
      ∧ 0 ≤ (parse_diff sDef dFall).additions ∧ 0 ≤ (parse_diff sDef dFall).deletions :=
  parse_diff_fallback_counts sDef dFall rfl

/-- C1: whenever the review chain fails (a model-call or parsing
exception with message `err`), `review_changes` converts the failure
into a `CodeReview` whose `overall_assessment` is the literal `"error"`,
whose comment list is exactly one system-category `Error`-severity
comment embedding the error text, and whose metadata maps `"error"` to
the failure text; no exception escapes. -/
theorem review_changes_error_boundary (s : Settings)
    (chain : ReviewContext → Except String CodeReview)
    (changes : List FileChange) (ci : Option String) (fa : Option (List String))
    (err : String) (hne : changes ≠ [])
    (hchain : chain (prepare_review_context (cap_changes s changes) ci fa)
        = Except.error err) :
    (review_changes s chain changes ci fa).overall_assessment = "error"
      ∧ (review_changes s chain changes ci fa).comments
        = [{ file_path := "N/A", line_number := none, severity := ReviewSeverity.error,
             category := "system", message := "Review process failed: " ++ err,
             suggestion := none }]
      ∧ (review_changes s chain changes ci fa).metadata "error" = some err := by
  cases changes with
  | nil => exact absurd rfl hne
  | cons c cs =>
      have hrw : review_changes s chain (c :: cs) ci fa
          = create_error_review (cap_changes s (c :: cs)) err := by
        unfold review_changes
        rw [if_neg (by simp), hchain]
      rw [hrw]
      exact ⟨rfl, rfl, rfl⟩

/-- Witness for C1: a failing chain on one concrete change. -/
theorem review_changes_error_boundary_witness :
    (review_changes sDef chainErr [cA] none none).overall_assessment = "error"
      ∧ (review_changes sDef chainErr [cA] none none).comments
        = [{ file_path := "N/A", line_number := none, severity := ReviewSeverity.error,
             category := "system", message := "Review process failed: " ++ "boom",
             suggestion := none }]
      ∧ (review_changes sDef chainErr [cA] none none).metadata "error" = some "boom" :=
  review_changes_error_boundary sDef chainErr [cA] none none "boom" (by decide) rfl

/-- C10: the degraded error review reports `files_reviewed` equal to the
number of (capped) changes actually attempted, `total_changes` equal to
the exact sums of their additions and deletions, an empty
`positive_feedback` list, and a summary embedding the error text. -/
theorem error_review_accurate_counts (s : Settings)
    (chain : ReviewContext → Except String CodeReview)
    (changes : List FileChange) (ci : Option String) (fa : Option (List String))
    (err : String) (hne : changes ≠ [])
    (hchain : chain (prepare_review_context (cap_changes s changes) ci fa)
        = Except.error err) :
    (review_changes s chain changes ci fa).files_reviewed = (cap_changes s changes).length
      ∧ (review_changes s chain changes ci fa).total_changes.additions
        = ((cap_changes s changes).map (fun c => c.additions)).sum
      ∧ (review_changes s chain changes ci fa).total_changes.deletions
        = ((cap_changes s changes).map (fun c => c.deletions)).sum
      ∧ (review_changes s chain changes ci fa).positive_feedback = []
      ∧ (review_changes s chain changes ci fa).summary
        = "Review failed with error: " ++ err := by
  cases changes with
  | nil => exact absurd rfl hne
  | cons c cs =>
      have hrw : review_changes s chain (c :: cs) ci fa
          = create_error_review (cap_changes s (c :: cs)) err := by
        unfold review_changes
        rw [if_neg (by simp), hchain]
      rw [hrw]
      refine ⟨rfl, ?_, ?_, rfl, rfl⟩
      · show (cap_changes s (c :: cs)).foldl (fun acc x => acc + x.additions) 0
          = ((cap_changes s (c :: cs)).map (fun x => x.additions)).sum
        rw [foldl_add_map_sum]
        simp
      · show (cap_changes s (c :: cs)).foldl (fun acc x => acc + x.deletions) 0
          = ((cap_changes s (c :: cs)).map (fun x => x.deletions)).sum
        rw [foldl_add_map_sum]
        simp

/-- Witness for C10: a failing chain on one concrete change. -/
theorem error_review_accurate_counts_witness :
    (review_changes sDef chainErr [cA] none none).files_reviewed
        = (cap_changes sDef [cA]).length
      ∧ (review_changes sDef chainErr [cA] none none).total_changes.additions
        = ((cap_changes sDef [cA]).map (fun c => c.additions)).sum
      ∧ (review_changes sDef chainErr [cA] none none).total_changes.deletions
        = ((cap_changes sDef [cA]).map (fun c => c.deletions)).sum
      ∧ (review_changes sDef chainErr [cA] none none).positive_feedback = []
      ∧ (review_changes sDef chainErr [cA] none none).summary
        = "Review failed with error: " ++ "boom" :=
  error_review_accurate_counts sDef chainErr [cA] none none "boom" (by decide) rfl

/-- C3 counterexample: on an empty change list `review_changes` returns
`positive_feedback = []`, not `["No changes to review"]` (that string is
the summary); the claim's `positive_feedback` value is refuted at a
concrete input. -/
theorem review_changes_empty_positive_feedback_cex :
    (review_changes sDef chainOk [] none none).positive_feedback
      ≠ ["No changes to review"] := by
  decide

/-- C3 (amended): on an empty change list `review_changes`
short-circuits before any model call (the result does not depend on the
chain) and returns `files_reviewed = 0`, zero totals, an empty comment
list, an empty `positive_feedback` list, and summary
`"No changes to review"`. -/
theorem review_changes_empty_short_circuit (s : Settings)
    (chain₁ chain₂ : ReviewContext → Except String CodeReview)
    (ci : Option String) (fa : Option (List String)) :
    (review_changes s chain₁ [] ci fa).files_reviewed = 0
      ∧ (review_changes s chain₁ [] ci fa).total_changes
        = { additions := 0, deletions := 0 }
      ∧ (review_changes s chain₁ [] ci fa).comments = []
      ∧ (review_changes s chain₁ [] ci fa).positive_feedback = []
      ∧ (review_changes s chain₁ [] ci fa).summary = "No changes to review"
      ∧ (review_changes s chain₁ [] ci fa).overall_assessment = "no changes"
      ∧ review_changes s chain₁ [] ci fa = review_changes s chain₂ [] ci fa :=
  ⟨rfl, rfl, rfl, rfl, rfl, rfl, rfl⟩

/-- C4 counterexample: with a cap of one file and two input changes, a
chain that succeeds with a model answer reporting `files_reviewed = 2`
makes `review_changes` return `files_reviewed = 2`, not the cap: in the
success path `files_reviewed` is whatever the parsed model output says. -/
theorem review_changes_cap_files_reviewed_cex :
    [cA, cB].length > sCap1.max_files_per_review
      ∧ (review_changes sCap1 chainOk [cA, cB] none none).files_reviewed
        ≠ sCap1.max_files_per_review
      ∧ (review_changes sCap1 chainOk [cA, cB] none none).files_reviewed = 2 := by
  refine ⟨by decide, ?_, rfl⟩
  show mockReview.files_reviewed ≠ sCap1.max_files_per_review
  decide

/-- C4 (amended): when the input exceeds the cap, exactly the first
`max_files_per_review` records, in their original order, survive to
context assembly (`num_files` equals the cap); on chain failure the
returned `files_reviewed` equals the cap; on chain success the result is
the parsed model output as-is (so its `files_reviewed` is whatever the
model reported). -/
theorem review_changes_cap_truncation (s : Settings)
    (chain : ReviewContext → Except String CodeReview)
    (changes : List FileChange) (ci : Option String) (fa : Option (List String))
    (hover : changes.length > s.max_files_per_review) :
    cap_changes s changes = changes.take s.max_files_per_review
      ∧ (prepare_review_context (cap_changes s changes) ci fa).num_files
        = s.max_files_per_review
      ∧ (∀ err, chain (prepare_review_context (cap_changes s changes) ci fa)
            = Except.error err →
          (review_changes s chain changes ci fa).files_reviewed
            = s.max_files_per_review)
      ∧ (∀ r, chain (prepare_review_context (cap_changes s changes) ci fa)
            = Except.ok r →
          review_changes s chain changes ci fa = r) := by
  have hcap : cap_changes s changes = changes.take s.max_files_per_review := by
    rw [cap_changes, if_pos hover]
  have hlen : (cap_changes s changes).length = s.max_files_per_review := by
    rw [hcap, List.length_take]
    omega
  obtain ⟨c, cs, rfl⟩ : ∃ c cs, changes = c :: cs := by
    cases changes with
    | nil => simp at hover
    | cons c cs => exact ⟨c, cs, rfl⟩
  refine ⟨hcap, hlen, ?_, ?_⟩
  · intro err hchain
    have hrw : review_changes s chain (c :: cs) ci fa
        = create_error_review (cap_changes s (c :: cs)) err := by
      unfold review_changes
      rw [if_neg (by simp), hchain]
    rw [hrw]
    exact hlen
  · intro r hchain
    unfold review_changes
    rw [if_neg (by simp), hchain]

/-- Witness for C4 (amended): cap of one, two concrete changes. -/
theorem review_changes_cap_truncation_witness :
    cap_changes sCap1 [cA, cB] = [cA, cB].take sCap1.max_files_per_review
      ∧ (prepare_review_context (cap_changes sCap1 [cA, cB]) none none).num_files
        = sCap1.max_files_per_review
      ∧ (∀ err, chainOk (prepare_review_context (cap_changes sCap1 [cA, cB]) none none)
            = Except.error err →
          (review_changes sCap1 chainOk [cA, cB] none none).files_reviewed
            = sCap1.max_files_per_review)
      ∧ (∀ r, chainOk (prepare_review_context (cap_changes sCap1 [cA, cB]) none none)
            = Except.ok r →
          review_changes sCap1 chainOk [cA, cB] none none = r) :=
  review_changes_cap_truncation sCap1 chainOk [cA, cB] none none (by decide)

/-- C2 counterexample: in the zero-changes short-circuit of
`CoReviewer.review`, `metadata` has no `"workspace_path"` entry at all
(the code only stores the base and current branch there), so the
metadata is not populated with the workspace location as claimed. -/
theorem review_no_changes_metadata_cex :
    (review sDef "feature" [] chainOk reqA).metadata "workspace_path" = none
      ∧ reqA.workspace_path = "/ws/project" :=
  ⟨rfl, rfl⟩

/-- C2 (amended): on zero extracted change records `CoReviewer.review`
returns, without invoking the Analysis Agent (the result does not depend
on the chain), a review with `overall_assessment = "no changes"`,
`files_reviewed = 0`, zero totals,
`positive_feedback = ["No changes to review"]`, and metadata populated
with the base branch and the resolved current branch only — the
workspace location is absent. -/
theorem review_no_changes_short_circuit (s : Settings) (scanner_branch : String)
    (chain₁ chain₂ : ReviewContext → Except String CodeReview)
    (request : ReviewRequest) :
    (review s scanner_branch [] chain₁ request).overall_assessment = "no changes"
      ∧ (review s scanner_branch [] chain₁ request).files_reviewed = 0
      ∧ (review s scanner_branch [] chain₁ request).total_changes
        = { additions := 0, deletions := 0 }
      ∧ (review s scanner_branch [] chain₁ request).positive_feedback
        = ["No changes to review"]
      ∧ (review s scanner_branch [] chain₁ request).summary
        = "No changes detected between branches"
      ∧ (review s scanner_branch [] chain₁ request).metadata "base_branch"
        = some request.base_branch
      ∧ (review s scanner_branch [] chain₁ request).metadata "current_branch"
        = some (resolve_current_branch request scanner_branch)
      ∧ (review s scanner_branch [] chain₁ request).metadata "workspace_path" = none
      ∧ review s scanner_branch [] chain₁ request
        = review s scanner_branch [] chain₂ request :=
  ⟨rfl, rfl, rfl, rfl, rfl, rfl, rfl, rfl, rfl⟩

/-- C7: the enrichment step of `CoReviewer.review` forces the metadata
keys `base_branch`, `current_branch` and `workspace_path` to the
orchestrator's authoritative values, leaves every other metadata key as
the Analysis Agent set it, and leaves every non-metadata field of the
agent's result unchanged. -/
theorem review_enrichment_frame (s : Settings) (scanner_branch : String)
    (changes : List FileChange) (chain : ReviewContext → Except String CodeReview)
    (request : ReviewRequest) (k : String) (hne : changes ≠ [])
    (hk1 : k ≠ "base_branch") (hk2 : k ≠ "current_branch")
    (hk3 : k ≠ "workspace_path") :
    (review s scanner_branch changes chain request).summary
        = (review_changes s chain changes request.custom_instructions
            (some request.focus_areas)).summary
      ∧ (review s scanner_branch changes chain request).files_reviewed
        = (review_changes s chain changes request.custom_instructions
            (some request.focus_areas)).files_reviewed
      ∧ (review s scanner_branch changes chain request).total_changes
        = (review_changes s chain changes request.custom_instructions
            (some request.focus_areas)).total_changes
      ∧ (review s scanner_branch changes chain request).comments
        = (review_changes s chain changes request.custom_instructions
            (some request.focus_areas)).comments
      ∧ (review s scanner_branch changes chain request).positive_feedback
        = (review_changes s chain changes request.custom_instructions
            (some request.focus_areas)).positive_feedback
      ∧ (review s scanner_branch changes chain request).overall_assessment
        = (review_changes s chain changes request.custom_instructions
            (some request.focus_areas)).overall_assessment
      ∧ (review s scanner_branch changes chain request).metadata "base_branch"
        = some request.base_branch
      ∧ (review s scanner_branch changes chain request).metadata "current_branch"
        = some (resolve_current_branch request scanner_branch)
      ∧ (review s scanner_branch changes chain request).metadata "workspace_path"
        = some request.workspace_path
      ∧ (review s scanner_branch changes chain request).metadata k
        = (review_changes s chain changes request.custom_instructions
            (some request.focus_areas)).metadata k := by
  cases changes with
  | nil => exact absurd rfl hne
  | cons c cs =>
      refine ⟨rfl, rfl, rfl, rfl, rfl, rfl, rfl, rfl, rfl, ?_⟩
      show (if k = "base_branch" then some request.base_branch
            else if k = "current_branch"
              then some (resolve_current_branch request scanner_branch)
            else if k = "workspace_path" then some request.workspace_path
            else (review_changes s chain (c :: cs) request.custom_instructions
              (some request.focus_areas)).metadata k)
          = (review_changes s chain (c :: cs) request.custom_instructions
              (some request.focus_areas)).metadata k
      rw [if_neg hk1, if_neg hk2, if_neg hk3]

/-- Witness for C7: a concrete request, one concrete change, a failing
chain (whose error review sets the metadata key `"error"`), and the
untouched foreign key `"error"`. -/
theorem review_enrichment_frame_witness :
    (review sDef "feature" [cA] chainErr reqA).summary
        = (review_changes sDef chainErr [cA] reqA.custom_instructions
            (some reqA.focus_areas)).summary
      ∧ (review sDef "feature" [cA] chainErr reqA).files_reviewed
        = (review_changes sDef chainErr [cA] reqA.custom_instructions
            (some reqA.focus_areas)).files_reviewed
      ∧ (review sDef "feature" [cA] chainErr reqA).total_changes
        = (review_changes sDef chainErr [cA] reqA.custom_instructions
            (some reqA.focus_areas)).total_changes
      ∧ (review sDef "feature" [cA] chainErr reqA).comments
        = (review_changes sDef chainErr [cA] reqA.custom_instructions
            (some reqA.focus_areas)).comments
      ∧ (review sDef "feature" [cA] chainErr reqA).positive_feedback
        = (review_changes sDef chainErr [cA] reqA.custom_instructions
            (some reqA.focus_areas)).positive_feedback
      ∧ (review sDef "feature" [cA] chainErr reqA).overall_assessment
        = (review_changes sDef chainErr [cA] reqA.custom_instructions
            (some reqA.focus_areas)).overall_assessment
      ∧ (review sDef "feature" [cA] chainErr reqA).metadata "base_branch"
        = some reqA.base_branch
      ∧ (review sDef "feature" [cA] chainErr reqA).metadata "current_branch"
        = some (resolve_current_branch reqA "feature")
      ∧ (review sDef "feature" [cA] chainErr reqA).metadata "workspace_path"
        = some reqA.workspace_path
      ∧ (review sDef "feature" [cA] chainErr reqA).metadata "error"
        = (review_changes sDef chainErr [cA] reqA.custom_instructions
            (some reqA.focus_areas)).metadata "error" :=
  review_enrichment_frame sDef "feature" [cA] chainErr reqA "error" (by decide)
    (by decide) (by decide) (by decide)

/-- C6: a parsed diff is classified into exactly one kind by the
precedence new-file → Added, else deleted-file → Deleted, else rename →
Renamed (capturing the old path), else Modified; and, given that a
renamed git diff always carries its source path (`a_path`), `old_path`
is set if and only if the kind is Renamed. -/
theorem parse_diff_classification (s : Settings) (d : DiffEntry)
    (hren : d.renamed_file = true → d.a_path ≠ none) :
    ((parse_diff s d).change_type = .added ↔ d.new_file = true)
      ∧ ((parse_diff s d).change_type = .deleted
          ↔ (d.new_file = false ∧ d.deleted_file = true))
      ∧ ((parse_diff s d).change_type = .renamed
          ↔ (d.new_file = false ∧ d.deleted_file = false ∧ d.renamed_file = true))
      ∧ ((parse_diff s d).change_type = .modified
          ↔ (d.new_file = false ∧ d.deleted_file = false ∧ d.renamed_file = false))
      ∧ ((parse_diff s d).change_type = .renamed → (parse_diff s d).old_path = d.a_path)
      ∧ ((parse_diff s d).old_path ≠ none ↔ (parse_diff s d).change_type = .renamed) := by
  have hct : (parse_diff s d).change_type = (classify_diff d).1 := rfl
  have hop : (parse_diff s d).old_path = (classify_diff d).2.2 := rfl
  rw [hct, hop]
  rcases d with ⟨nf, df, rf, ap, bp, ct, st⟩
  cases nf with
  | true => simp [classify_diff]
  | false =>
      cases df with
      | true => simp [classify_diff]
      | false =>
          cases rf with
          | true =>
              have hap : ap ≠ none := hren rfl
              simp [classify_diff, hap]
          | false => simp [classify_diff]

/-- Witness for C6: a concrete rename diff entry. -/
theorem parse_diff_classification_witness :
    ((parse_diff sDef dRen).change_type = .added ↔ dRen.new_file = true)
      ∧ ((parse_diff sDef dRen).change_type = .deleted
          ↔ (dRen.new_file = false ∧ dRen.deleted_file = true))
      ∧ ((parse_diff sDef dRen).change_type = .renamed
          ↔ (dRen.new_file = false ∧ dRen.deleted_file = false
              ∧ dRen.renamed_file = true))
      ∧ ((parse_diff sDef dRen).change_type = .modified
          ↔ (dRen.new_file = false ∧ dRen.deleted_file = false
              ∧ dRen.renamed_file = false))
      ∧ ((parse_diff sDef dRen).change_type = .renamed →
          (parse_diff sDef dRen).old_path = dRen.a_path)
      ∧ ((parse_diff sDef dRen).old_path ≠ none
          ↔ (parse_diff sDef dRen).change_type = .renamed) :=
  parse_diff_classification sDef dRen (by decide)

end CoRev
